import Mathlib

set_option maxRecDepth 100000

/-!
Shallow embedding of the token-bridge VAA execution engine
(`src/wormhole_chain/x/tokenbridge/keeper/msg_server_execute_vaa.go`).

The engine receives an already-verified cross-chain message (a VAA), runs
replay protection and emitter-registration checks, dispatches on the payload
type tag, and either applies a token transfer or registers wrapped-asset
metadata.  VAA parsing, signature verification and the underlying bank ledger
are external collaborators; they are modelled as explicit state and simple
total functions.  Machine integers of the Go code (`uint16`, `uint32`,
`uint64`, bytes) are modelled as `Nat`; the arbitrary-precision `big.Int`
amounts are modelled as `Int`.

Execution is modelled as a function from a state and a verified message to an
`Outcome`: either success with the updated state and the ordered list of
effects performed (store writes, ledger operations, emitted events), or a
typed failure together with the effects that had been performed before the
failing step (the surrounding Cosmos transaction machinery rolls those back;
the trace records what the code itself did in program order).
-/

namespace Tokenbridge

/-- Typed failures of `ExecuteVAA` (the `types.Err...` values of the Go code,
plus the propagated collaborator failures). -/
inductive Err where
  | noConfig
  | alreadyExecuted
  | unregisteredChain
  | unregisteredEmitter
  | payloadInvalid
  | invalidTargetChain
  | noDenomMetadata
  | assetNotRegistered
  | invalidAmount
  | invalidFee
  | untruncateAmountFailed
  | untruncateFeeFailed
  | feeTooHigh
  | sendFailed
  | bech32Invalid
  | nativeAssetRegistration
  | assetMetaRollback
  | changeDecimals
  | mismatchedDisplay
  | unknownPayloadType
deriving DecidableEq, Repr

/-- One denomination unit of bank metadata (`btypes.DenomUnit`). -/
structure DenomUnit where
  denom : String
  exponent : Nat
deriving DecidableEq, Repr

/-- Bank denomination metadata (`btypes.Metadata`). -/
structure Metadata where
  description : String
  denomUnits : List DenomUnit
  base : String
  display : String
  name : String
  symbol : String
deriving DecidableEq, Repr

/-- An `sdk.Coin`: a denomination together with an (arbitrary-precision,
possibly negative before validation) amount. -/
structure Coin where
  denom : String
  amount : Int
deriving DecidableEq, Repr

/-- A chain registration: the trusted emitter address for a foreign chain id. -/
structure ChainRegistration where
  chainId : Nat
  emitterAddress : List Nat
deriving DecidableEq, Repr

/-- The rollback-protection record for a wrapped-coin identifier
(`types.CoinMetaRollbackProtection`). -/
structure CoinMetaRollbackProtection where
  index : String
  lastUpdateSequence : Nat
deriving DecidableEq, Repr

/-- A single account balance entry of the bank ledger. -/
structure Balance where
  acct : List Nat
  denom : String
  amt : Int
deriving DecidableEq, Repr

/-- The wormhole module configuration (`whtypes.Config`); only the chain id is
used by this engine. -/
structure Config where
  chainId : Nat
deriving DecidableEq, Repr

/-- The store state visible to `ExecuteVAA`: replay markers, chain
registrations, bank denomination metadata, rollback records and balances. -/
structure State where
  config : Option Config
  replay : List String
  registrations : List ChainRegistration
  denomMeta : List Metadata
  rollback : List CoinMetaRollbackProtection
  balances : List Balance
deriving DecidableEq, Repr

/-- The transfer-received event (`types.EventTransferReceived`). -/
structure EventTransferReceived where
  tokenChain : Nat
  tokenAddress : List Nat
  toAddr : String
  feeRecipient : String
  amount : String
  fee : String
  localDenom : String
deriving DecidableEq, Repr

/-- The asset-registration event (`types.EventAssetRegistrationUpdate`). -/
structure EventAssetRegistrationUpdate where
  tokenChain : Nat
  tokenAddress : List Nat
  name : String
  symbol : String
  decimals : Nat
deriving DecidableEq, Repr

/-- One observable effect of processing, in program order: ledger mutations,
store writes and emitted events. -/
inductive Effect where
  | mint (denom : String) (amt : Int)
  | send (src dst : List Nat) (denom : String) (amt : Int)
  | setDenomMeta (m : Metadata)
  | setRollback (id : String) (seq : Nat)
  | setReplay (digest : String)
  | emitTransfer (e : EventTransferReceived)
  | emitAssetMeta (e : EventAssetRegistrationUpdate)
deriving DecidableEq, Repr

/-- Result of one `ExecuteVAA` call: success with the new state and the trace
of performed effects, or a typed failure with the effects performed before the
failing step (rolled back by the surrounding atomic commit). -/
inductive Outcome where
  | ok (s : State) (tr : List Effect)
  | fail (e : Err) (tr : List Effect)
deriving DecidableEq, Repr

/-- A verified VAA as handed to the engine after the external parse/verify
collaborators succeed (the `VerifiedMessage` of the spec). -/
structure VerifiedMessage where
  digest : String
  emitterChain : Nat
  emitterAddress : List Nat
  sequence : Nat
  payload : List Nat
deriving DecidableEq, Repr

/-! ## Store and ledger collaborator operations -/

def getChainRegistration (s : State) (c : Nat) : Option ChainRegistration :=
  s.registrations.find? (fun r => r.chainId == c)

def getDenomMetaData (s : State) (d : String) : Option Metadata :=
  s.denomMeta.find? (fun m => m.base == d)

/-- `SetDenomMetaData` stores metadata keyed by its base denom; the newest
entry shadows any older entry with the same base. -/
def setDenomMetaData (s : State) (m : Metadata) : State :=
  { s with denomMeta := m :: s.denomMeta }

def getRollback (s : State) (id : String) : Option Nat :=
  (s.rollback.find? (fun r => r.index == id)).map (fun r => r.lastUpdateSequence)

def setRollback (s : State) (id : String) (seq : Nat) : State :=
  { s with rollback := ⟨id, seq⟩ :: s.rollback }

def addReplay (s : State) (d : String) : State :=
  { s with replay := d :: s.replay }

def getBalance (s : State) (a : List Nat) (d : String) : Int :=
  ((s.balances.find? (fun b => b.acct == a && b.denom == d)).map (fun b => b.amt)).getD 0

def setBalance (s : State) (a : List Nat) (d : String) (v : Int) : State :=
  { s with balances := ⟨a, d, v⟩ :: s.balances.filter (fun b => !(b.acct == a && b.denom == d)) }

/-- Modelled from the spec: the address of the module holding account
(`k.accountKeeper.GetModuleAddress(types.ModuleName)`, an external
collaborator); a fixed deterministic address. -/
def moduleAddr : List Nat := [8, 8, 8]

/-- Modelled from the spec: the bank collaborator operation `MintCoins`, which credits
the module holding account. -/
def mintCoins (s : State) (d : String) (v : Int) : State :=
  setBalance s moduleAddr d (getBalance s moduleAddr d + v)

/-- Modelled from the spec: the bank collaborator operation `SendCoins`, which fails
(without mutation) when the source account lacks funds. -/
def sendCoins (s : State) (src dst : List Nat) (d : String) (v : Int) : Option State :=
  if getBalance s src d < v then none
  else
    let s1 := setBalance s src d (getBalance s src d - v)
    some (setBalance s1 dst d (getBalance s1 dst d + v))

/-! ## Byte decoding helpers -/

/-- Big-endian interpretation of a byte list (`new(big.Int).SetBytes`). -/
def beBytesToNat (bs : List Nat) : Nat :=
  bs.foldl (fun acc b => acc * 256 + b) 0

/-- Big-endian `uint16` from the first two entries (`binary.BigEndian.Uint16`). -/
def beUint16 (bs : List Nat) : Nat :=
  256 * bs.headD 0 + bs.tail.headD 0

/-- Raw bytes read as a string, one character per byte (the Go conversion
`string(b)` on the byte ranges used here). -/
def bytesToString (bs : List Nat) : String :=
  String.mk (bs.map Char.ofNat)

/-- `strings.Trim(s, "\x00")`: drop NUL bytes from both ends. -/
def trimNul (bs : List Nat) : List Nat :=
  ((bs.dropWhile (fun b => b == 0)).reverse.dropWhile (fun b => b == 0)).reverse

/-! ## External pure collaborators -/

/-- Modelled from the spec: the chain id of the special token of the system
itself (the chain constant of `types.IsWORMToken`, whose source is not under
`src/`). -/
def wormTokenChain : Nat := 1

/-- Modelled from the spec: the 32-byte address of the special token of the
system itself (the address constant of `types.IsWORMToken`). -/
def wormTokenAddress : List Nat := List.replicate 31 0 ++ [87]

/-- Modelled from the spec: `types.IsWORMToken`, true exactly on the fixed
(chain, address) pair of the native wrapped-representation token of the
system itself. -/
def IsWORMToken (c : Nat) (a : List Nat) : Bool :=
  c == wormTokenChain && a == wormTokenAddress

/-- Modelled from the spec: `types.GetWrappedCoinIdentifier`, a pure
deterministic encoding of a foreign (chain, address) pair into a wrapped-asset
name (its source is not under `src/`; only determinism matters here). -/
def GetWrappedCoinIdentifier (c : Nat) (a : List Nat) : String :=
  "wh/" ++ toString c ++ "/" ++ String.intercalate "." (a.map toString)

/-- Modelled from the spec: one character of a valid denomination per the
denomination grammar of the bank collaborator (letters, digits and the four
punctuation marks slash, colon, dot, underscore, plus hyphen). -/
def denomChar (c : Nat) : Bool :=
  (65 ≤ c && c ≤ 90) || (97 ≤ c && c ≤ 122) || (48 ≤ c && c ≤ 57) ||
    c == 47 || c == 58 || c == 46 || c == 95 || c == 45

/-- Modelled from the spec: the denomination validation of the bank
collaborator: a letter followed by 2 to 127 further denomination
characters. -/
def validDenomBytes (bs : List Nat) : Bool :=
  match bs with
  | [] => false
  | c :: rest =>
    ((65 ≤ c && c ≤ 90) || (97 ≤ c && c ≤ 122)) &&
      decide (2 ≤ rest.length) && decide (rest.length ≤ 127) && rest.all denomChar

def validDenom (d : String) : Bool :=
  validDenomBytes (d.data.map Char.toNat)

/-- `sdk.Coin.Validate`: valid denomination and non-negative amount. -/
def coinValid (c : Coin) : Bool :=
  validDenom c.denom && decide (0 ≤ c.amount)

/-- The exponent of the display unit of the metadata. -/
def displayExponent (meta : Metadata) : Option Nat :=
  (meta.denomUnits.find? (fun d => d.denom == meta.display)).map (fun d => d.exponent)

/-- Modelled from the spec: `types.Untruncate` (source not under `src/`),
the §4.4 amount normalizer.  The wire encodes amounts at 8 decimal places;
converting to the native precision of the token multiplies by `10^(native-8)` when
the native precision is at least 8, and floor-divides by `10^(8-native)`
otherwise; it fails when the metadata lacks a display unit or the result
would be negative. -/
def Untruncate (c : Coin) (meta : Metadata) : Except Err Coin :=
  match displayExponent meta with
  | none => .error .untruncateAmountFailed
  | some e =>
    let v : Int :=
      if 8 ≤ e then c.amount * (10 : Int) ^ (e - 8)
      else Int.fdiv c.amount ((10 : Int) ^ (8 - e))
    if v < 0 then .error .untruncateAmountFailed else .ok ⟨c.denom, v⟩

/-- Modelled from the spec: the external `sdk.AccAddressFromBech32` address
decoding; it can fail (modelled: on the empty string), and is otherwise a
deterministic injection of the textual address. -/
def accAddressFromBech32 (s : String) : Except Err (List Nat) :=
  if s = "" then .error .bech32Invalid else .ok (s.data.map Char.toNat)

/-- Modelled from the spec: `sdk.AccAddress.String()`, the deterministic
textual rendering of an address. -/
def accAddressToString (a : List Nat) : String :=
  String.intercalate "," (a.map toString)

/-! ## Payload decoding -/

/-- The decoded Transfer instruction body: the local `big.Int` and byte-slice
variables of the `PayloadIDTransfer` case (offsets per the 132-byte layout). -/
structure TransferInstr where
  amountRaw : Int
  tokenAddress : List Nat
  tokenChain : Nat
  toAcct : List Nat
  toChain : Nat
  feeRaw : Int
deriving DecidableEq, Repr

/-- Decode the 132-byte Transfer body: amount [0,32), tokenAddress [32,64),
tokenChain [64,66), reserved [66,78), recipient [78,98), toChain [98,100),
fee [100,132). -/
def decodeTransfer (body : List Nat) : TransferInstr :=
  { amountRaw := (beBytesToNat (body.take 32) : Int)
  , tokenAddress := (body.drop 32).take 32
  , tokenChain := beUint16 (body.drop 64)
  , toAcct := (body.drop 78).take 20
  , toChain := beUint16 (body.drop 98)
  , feeRaw := (beBytesToNat ((body.drop 100).take 32) : Int) }

/-- The decoded AssetMeta instruction body (offsets per the 99-byte layout). -/
structure AssetMetaInstr where
  tokenAddress : List Nat
  tokenChain : Nat
  decimals : Nat
  symbol : String
  name : String
deriving DecidableEq, Repr

/-- Decode the 99-byte AssetMeta body: tokenAddress [0,32), tokenChain
[32,34), decimals [34], symbol [35,67) NUL-trimmed, name [67,99)
NUL-trimmed. -/
def decodeAssetMeta (body : List Nat) : AssetMetaInstr :=
  { tokenAddress := body.take 32
  , tokenChain := beUint16 (body.drop 32)
  , decimals := (body.drop 34).headD 0
  , symbol := bytesToString (trimNul ((body.drop 35).take 32))
  , name := bytesToString (trimNul ((body.drop 67).take 32)) }

/-! ## Denomination identifier resolution -/

/-- The identifier/wrapped resolution of the Transfer case: the special token
of the system maps to the fixed native symbol (minted, not held natively); a
token from another chain maps to the prefixed wrapped-asset name (minted); a
token of this chain recovers the local denom from the address (the Go call
`strings.TrimLeft(string(tokenAddress), NUL)`). -/
def resolveIdentifier (chainId tokenChain : Nat) (tokenAddress : List Nat) :
    String × Bool :=
  if IsWORMToken tokenChain tokenAddress then ("uworm", true)
  else if tokenChain ≠ chainId then
    ("b" ++ GetWrappedCoinIdentifier tokenChain tokenAddress, true)
  else (bytesToString (tokenAddress.dropWhile (fun b => b == 0)), false)

/-! ## Transfer executor -/

/-- The transfer-received event as built at the end of the Transfer case. -/
def mkTransferEvent (i : TransferInstr) (txSender : List Nat)
    (amount fee : Coin) (identifier : String) : EventTransferReceived :=
  { tokenChain := i.tokenChain
  , tokenAddress := i.tokenAddress
  , toAddr := accAddressToString i.toAcct
  , feeRecipient := accAddressToString txSender
  , amount := toString amount.amount
  , fee := toString fee.amount
  , localDenom := identifier }

/-- The effect application of the Transfer case after all checks passed: the
optional mint of the wrapped amount into the module account, the principal
send, the optional fee send to the transaction sender, and the event. -/
def transferApply (creator : String) (i : TransferInstr) (identifier : String)
    (wrapped : Bool) (amount fee : Coin) (s : State) : Outcome :=
  match sendCoins (if wrapped then mintCoins s identifier amount.amount else s)
      moduleAddr i.toAcct identifier (amount.amount - fee.amount) with
  | none => .fail .sendFailed (if wrapped then [.mint identifier amount.amount] else [])
  | some s2 =>
    match accAddressFromBech32 creator with
    | .error e =>
      .fail e ((if wrapped then [.mint identifier amount.amount] else []) ++
        [.send moduleAddr i.toAcct identifier (amount.amount - fee.amount)])
    | .ok txSender =>
      if 0 < fee.amount then
        match sendCoins s2 moduleAddr txSender identifier fee.amount with
        | none =>
          .fail .sendFailed ((if wrapped then [.mint identifier amount.amount] else []) ++
            [.send moduleAddr i.toAcct identifier (amount.amount - fee.amount)])
        | some s3 =>
          .ok s3 ((if wrapped then [.mint identifier amount.amount] else []) ++
            [.send moduleAddr i.toAcct identifier (amount.amount - fee.amount),
             .send moduleAddr txSender identifier fee.amount,
             .emitTransfer (mkTransferEvent i txSender amount fee identifier)])
      else
        .ok s2 ((if wrapped then [.mint identifier amount.amount] else []) ++
          [.send moduleAddr i.toAcct identifier (amount.amount - fee.amount),
           .emitTransfer (mkTransferEvent i txSender amount fee identifier)])

/-- The body of the `PayloadIDTransfer` case after decoding: target-chain
check, identifier resolution, metadata lookup, amount/fee validation and
normalization, fee check, then `transferApply`. -/
def transferCore (chainId : Nat) (creator : String) (i : TransferInstr)
    (s : State) : Outcome :=
  if i.toChain ≠ chainId then .fail .invalidTargetChain [] else
  match getDenomMetaData s (resolveIdentifier chainId i.tokenChain i.tokenAddress).1 with
  | none =>
    .fail (if (resolveIdentifier chainId i.tokenChain i.tokenAddress).2 then
      .assetNotRegistered else .noDenomMetadata) []
  | some meta =>
    if coinValid ⟨(resolveIdentifier chainId i.tokenChain i.tokenAddress).1, i.amountRaw⟩ then
      match Untruncate ⟨(resolveIdentifier chainId i.tokenChain i.tokenAddress).1, i.amountRaw⟩ meta with
      | .error _ => .fail .untruncateAmountFailed []
      | .ok amount =>
        if coinValid ⟨(resolveIdentifier chainId i.tokenChain i.tokenAddress).1, i.feeRaw⟩ then
          match Untruncate ⟨(resolveIdentifier chainId i.tokenChain i.tokenAddress).1, i.feeRaw⟩ meta with
          | .error _ => .fail .untruncateFeeFailed []
          | .ok fee =>
            if amount.amount < fee.amount then .fail .feeTooHigh []
            else transferApply creator i (resolveIdentifier chainId i.tokenChain i.tokenAddress).1
              (resolveIdentifier chainId i.tokenChain i.tokenAddress).2 amount fee s
        else .fail .invalidFee []
    else .fail .invalidAmount []

/-- The `PayloadIDTransfer` case: length check then `transferCore`. -/
def executeTransfer (chainId : Nat) (creator : String) (body : List Nat)
    (s : State) : Outcome :=
  if body.length ≠ 132 then .fail .payloadInvalid []
  else transferCore chainId creator (decodeTransfer body) s

/-! ## Asset registrar -/

/-- The generated metadata description (`fmt.Sprintf` of chain and address). -/
def describeAsset (c : Nat) (a : List Nat) : String :=
  "Portal wrapped asset from chain " ++ toString c ++ " with address " ++
    String.intercalate "" (a.map toString)

/-- The metadata record written by an AssetMeta registration: base unit at
exponent 0, display unit (the wrapped identifier) at the message decimals. -/
def regMetadata (i : AssetMetaInstr) : Metadata :=
  let identifier := GetWrappedCoinIdentifier i.tokenChain i.tokenAddress
  let baseDenom := "b" ++ identifier
  { description := describeAsset i.tokenChain i.tokenAddress
  , denomUnits := [⟨baseDenom, 0⟩, ⟨identifier, i.decimals⟩]
  , base := baseDenom
  , display := identifier
  , name := i.name
  , symbol := i.symbol }

/-- The rollback guard: true when a record exists whose `lastUpdateSequence`
is at least the sequence of the message. -/
def rollbackBlocked (s : State) (id : String) (seq : Nat) : Bool :=
  match getRollback s id with
  | some r => decide (seq ≤ r)
  | none => false

/-- The existing-metadata checks of the AssetMeta case: a stored display name
differing from the identifier is fatal, and any existing unit for the
identifier with a different exponent fails `ChangeDecimals`. -/
def metaCheck (s : State) (id baseDenom : String) (decimals : Nat) : Option Err :=
  match getDenomMetaData s baseDenom with
  | none => none
  | some meta =>
    if meta.display ≠ id then some .mismatchedDisplay
    else if meta.denomUnits.any (fun d => d.denom == id && d.exponent != decimals) then
      some .changeDecimals
    else none

/-- The body of the `PayloadIDAssetMeta` case after decoding: native-asset
checks, chain-registration check, rollback protection, metadata checks, then
the metadata and rollback writes and the event. -/
def assetMetaCore (chainId seq : Nat) (i : AssetMetaInstr) (s : State) : Outcome :=
  if i.tokenChain = chainId then .fail .nativeAssetRegistration [] else
  if IsWORMToken i.tokenChain i.tokenAddress then .fail .nativeAssetRegistration [] else
  match getChainRegistration s i.tokenChain with
  | none => .fail .unregisteredEmitter []
  | some _ =>
    if rollbackBlocked s (GetWrappedCoinIdentifier i.tokenChain i.tokenAddress) seq then
      .fail .assetMetaRollback []
    else
      match metaCheck s (GetWrappedCoinIdentifier i.tokenChain i.tokenAddress)
          ("b" ++ GetWrappedCoinIdentifier i.tokenChain i.tokenAddress) i.decimals with
      | some e => .fail e []
      | none =>
        .ok (setRollback (setDenomMetaData s (regMetadata i))
              (GetWrappedCoinIdentifier i.tokenChain i.tokenAddress) seq)
          [.setDenomMeta (regMetadata i),
           .setRollback (GetWrappedCoinIdentifier i.tokenChain i.tokenAddress) seq,
           .emitAssetMeta ⟨i.tokenChain, i.tokenAddress, i.name, i.symbol, i.decimals⟩]

/-- The `PayloadIDAssetMeta` case: length check then `assetMetaCore`. -/
def executeAssetMeta (chainId seq : Nat) (body : List Nat) (s : State) : Outcome :=
  if body.length ≠ 99 then .fail .payloadInvalid []
  else assetMetaCore chainId seq (decodeAssetMeta body) s

/-! ## Dispatcher -/

/-- `ExecuteVAA` on an already parsed and verified message: config lookup,
replay protection, emitter registration and address check, payload tag
dispatch, and the final replay-protection write on success. -/
def ExecuteVAA (s : State) (v : VerifiedMessage) (creator : String) : Outcome :=
  match s.config with
  | none => .fail .noConfig []
  | some cfg =>
    if s.replay.contains v.digest then .fail .alreadyExecuted [] else
    match getChainRegistration s v.emitterChain with
    | none => .fail .unregisteredChain []
    | some registration =>
      if v.emitterAddress ≠ registration.emitterAddress then .fail .unregisteredEmitter [] else
      match v.payload with
      | [] => .fail .payloadInvalid []
      | payloadId :: body =>
        match (if payloadId = 1 then executeTransfer cfg.chainId creator body s
          else if payloadId = 2 then executeAssetMeta cfg.chainId v.sequence body s
          else .fail .unknownPayloadType []) with
        | .fail e tr => .fail e tr
        | .ok s1 tr => .ok (addReplay s1 v.digest) (tr ++ [.setReplay v.digest])

/-! ## Effect classification -/

/-- An effect that mutates ledger balances (mint or send). -/
def isLedgerOp : Effect → Bool
  | .mint _ _ => true
  | .send _ _ _ _ => true
  | _ => false

/-- An effect that writes a replay-protection record. -/
def isReplayEff : Effect → Bool
  | .setReplay _ => true
  | _ => false

/-- The effect trace of an outcome, successful or not. -/
def traceOf : Outcome → List Effect
  | .ok _ tr => tr
  | .fail _ tr => tr

/-- The store components a successful handler leaves untouched (transfers
only move balances). -/
def preservesStores (s s' : State) : Prop :=
  s'.config = s.config ∧ s'.replay = s.replay ∧ s'.registrations = s.registrations ∧
  s'.denomMeta = s.denomMeta ∧ s'.rollback = s.rollback

/-- The §4.3 native-coin clause of the spec taken literally: the UTF-8 decoding of
the token address with its TRAILING NUL bytes stripped.  This definition
follows the words of the spec (not the code) and exists only to be compared with
`resolveIdentifier`. -/
def specTrailingStrippedIdentifier (tokenAddress : List Nat) : String :=
  bytesToString ((tokenAddress.reverse.dropWhile (fun b => b == 0)).reverse)

/-! ## Concrete fixtures for witnesses and counterexamples -/

/-- A 32-byte big-endian encoding of a small number. -/
def be32 (n : Nat) : List Nat := List.replicate 31 0 ++ [n]

/-- A foreign token address: 31 NUL bytes then `5`. -/
def tok5 : List Nat := List.replicate 31 0 ++ [5]

/-- The `uatom` denomination left-padded into a 32-byte token address. -/
def uatomAddr : List Nat := List.replicate 27 0 ++ [117, 97, 116, 111, 109]

/-- Bank metadata for the native `uatom` denomination at 8 decimals. -/
def uatomMeta : Metadata :=
  { description := "", denomUnits := [⟨"uatom", 8⟩], base := "uatom"
  , display := "uatom", name := "", symbol := "" }

/-- A base state: chain id 1, emitters registered for chains 2 and 3. -/
def baseState : State :=
  { config := some ⟨1⟩
  , replay := []
  , registrations := [⟨2, [7]⟩, ⟨3, [9]⟩]
  , denomMeta := []
  , rollback := []
  , balances := [] }

/-- A 99-byte AssetMeta body for `tok5` on chain 3 with the given decimals,
symbol `S` and name `N`. -/
def amBody (dec : Nat) : List Nat :=
  tok5 ++ [0, 3] ++ [dec] ++ (List.replicate 31 0 ++ [83]) ++ (List.replicate 31 0 ++ [78])

/-- C1 fixture: a verified AssetMeta message with digest `d1` from chain 2. -/
def c1Msg : VerifiedMessage := ⟨"d1", 2, [7], 5, 2 :: amBody 6⟩

/-- C1 fixture: the state after successfully executing `c1Msg` on `baseState`. -/
def c1Mid : State :=
  addReplay
    (setRollback (setDenomMetaData baseState (regMetadata (decodeAssetMeta (amBody 6))))
      (GetWrappedCoinIdentifier 3 tok5) 5) "d1"

/-- C1 fixture: the effect trace of successfully executing `c1Msg`. -/
def c1Tr : List Effect :=
  [.setDenomMeta (regMetadata (decodeAssetMeta (amBody 6)))
  , .setRollback (GetWrappedCoinIdentifier 3 tok5) 5
  , .emitAssetMeta ⟨3, tok5, (decodeAssetMeta (amBody 6)).name,
      (decodeAssetMeta (amBody 6)).symbol, 6⟩
  , .setReplay "d1"]

/-- C2 fixture: the transfer recipient address. -/
def c2To : List Nat := List.replicate 20 1

/-- C2 fixture: a 132-byte Transfer body moving 10 `uatom` with fee 4 to this
chain. -/
def c2Body : List Nat :=
  be32 10 ++ uatomAddr ++ [0, 1] ++ List.replicate 12 0 ++ c2To ++ [0, 1] ++ be32 4

/-- C2 fixture: `baseState` plus `uatom` metadata and a module balance of 6,
enough for the principal transfer but not for the fee transfer. -/
def c2State : State :=
  { baseState with denomMeta := [uatomMeta], balances := [⟨moduleAddr, "uatom", 6⟩] }

/-- C2 fixture: a verified Transfer message with digest `d2` from chain 2. -/
def c2Msg : VerifiedMessage := ⟨"d2", 2, [7], 9, 1 :: c2Body⟩

/-- C2 fixture: the principal send performed before the failing fee send. -/
def c2Trace : List Effect := [.send moduleAddr c2To "uatom" 6]

/-- C3 fixture: a token address with the denomination bytes first and the NUL
padding at the end (`ua` then 30 NULs). -/
def c3Addr : List Nat := [117, 97] ++ List.replicate 30 0

/-- C5 fixture: the state after registering `tok5` (decimals 6, sequence 5). -/
def c5Mid : State :=
  setRollback (setDenomMetaData baseState (regMetadata (decodeAssetMeta (amBody 6))))
    (GetWrappedCoinIdentifier 3 tok5) 5

/-- C5 fixture: the effect trace of the first registration. -/
def c5Tr1 : List Effect :=
  [.setDenomMeta (regMetadata (decodeAssetMeta (amBody 6)))
  , .setRollback (GetWrappedCoinIdentifier 3 tok5) 5
  , .emitAssetMeta ⟨3, tok5, (decodeAssetMeta (amBody 6)).name,
      (decodeAssetMeta (amBody 6)).symbol, 6⟩]

/-- C4 fixture: a decoded AssetMeta instruction for `tok5` on chain 3. -/
def c4Instr : AssetMetaInstr := ⟨tok5, 3, 6, "S", "N"⟩

/-- C4 fixture: a state whose rollback record for `tok5` is at sequence 9. -/
def c4State : State :=
  { baseState with rollback := [⟨GetWrappedCoinIdentifier 3 tok5, 9⟩] }

/-- C6 fixture: a state that registers chain 3 only. -/
def c6State : State := { baseState with registrations := [⟨3, [9]⟩] }

/-- C6 fixture: a message from unregistered chain 2. -/
def c6Msg : VerifiedMessage := ⟨"d6", 2, [7], 1, 2 :: amBody 6⟩

/-- C6 fixture: a message from registered chain 3 with the wrong emitter. -/
def c6Msg2 : VerifiedMessage := ⟨"d6b", 3, [8], 1, 2 :: amBody 6⟩

/-- C7 fixture: a decoded native `uatom` transfer of 3 with fee 5. -/
def c7Instr : TransferInstr := ⟨3, uatomAddr, 1, c2To, 1, 5⟩

/-- C7 fixture: `baseState` plus `uatom` metadata. -/
def c7State : State := { baseState with denomMeta := [uatomMeta] }

/-- C8 fixture: bank metadata whose base denomination `A` is too short to be a
valid denomination. -/
def aMeta : Metadata :=
  { description := "", denomUnits := [⟨"A", 8⟩], base := "A"
  , display := "A", name := "", symbol := "" }

/-- C8 fixture: a Transfer body whose token address decodes (after stripping
leading NULs) to the invalid denomination `A`, with amount 2 and fee 9. -/
def c8Body : List Nat :=
  be32 2 ++ (List.replicate 31 0 ++ [65]) ++ [0, 1] ++ List.replicate 12 0 ++
    c2To ++ [0, 1] ++ be32 9

/-- C8 fixture: `baseState` plus the metadata for denomination `A`. -/
def c8State : State := { baseState with denomMeta := [aMeta] }

/-- C8 fixture: a decoded `uatom` transfer with a negative raw fee (the raw
fee is a `big.Int` in the code; byte decoding never produces this, so the
amended fee clause is exercised at the instruction level). -/
def c8Instr : TransferInstr := ⟨4, uatomAddr, 1, c2To, 1, -1⟩

/-- C9 fixture: the Transfer body bytes before the reserved range. -/
def c9Pre : List Nat := be32 10 ++ uatomAddr ++ [0, 1]

/-- C9 fixture: the Transfer body bytes after the reserved range. -/
def c9Post : List Nat := c2To ++ [0, 1] ++ be32 4

/-- C9 fixture: a Transfer body with all-zero reserved bytes. -/
def c9Body1 : List Nat := c9Pre ++ List.replicate 12 0 ++ c9Post

/-- C9 fixture: the same body with different reserved bytes. -/
def c9Body2 : List Nat := c9Pre ++ (5 :: 9 :: List.replicate 10 0) ++ c9Post

/-- C10 fixture: the state after registering `c4Instr` at sequence 7. -/
def c10Mid : State :=
  setRollback (setDenomMetaData baseState (regMetadata c4Instr))
    (GetWrappedCoinIdentifier 3 tok5) 7

/-- C10 fixture: the effect trace of registering `c4Instr` at sequence 7. -/
def c10Tr : List Effect :=
  [.setDenomMeta (regMetadata c4Instr)
  , .setRollback (GetWrappedCoinIdentifier 3 tok5) 7
  , .emitAssetMeta ⟨3, tok5, "N", "S", 6⟩]

/-! ## Helper lemmas -/

theorem preservesStores_refl (s : State) : preservesStores s s := ⟨rfl, rfl, rfl, rfl, rfl⟩

theorem preservesStores_trans {a b c : State} (h1 : preservesStores a b)
    (h2 : preservesStores b c) : preservesStores a c :=
  ⟨h2.1.trans h1.1, h2.2.1.trans h1.2.1, h2.2.2.1.trans h1.2.2.1,
   h2.2.2.2.1.trans h1.2.2.2.1, h2.2.2.2.2.trans h1.2.2.2.2⟩

theorem sendCoins_pres {s s' : State} {a b : List Nat} {d : String} {v : Int}
    (h : sendCoins s a b d v = some s') : preservesStores s s' := by
  unfold sendCoins at h
  split at h
  · exact absurd h (by simp)
  · simp only [Option.some.injEq] at h
    subst h
    exact ⟨rfl, rfl, rfl, rfl, rfl⟩

theorem mintState_pres (w : Bool) (s : State) (d : String) (v : Int) :
    preservesStores s (if w then mintCoins s d v else s) := by
  cases w <;> exact ⟨rfl, rfl, rfl, rfl, rfl⟩

theorem transferApply_ok_pres {cr : String} {i : TransferInstr} {idf : String} {w : Bool}
    {amount fee : Coin} {s s' : State} {tr : List Effect}
    (h : transferApply cr i idf w amount fee s = .ok s' tr) : preservesStores s s' := by
  unfold transferApply at h
  split at h
  · exact absurd h (by simp)
  · rename_i s2 hs2
    have h2 := preservesStores_trans (mintState_pres w s idf amount.amount) (sendCoins_pres hs2)
    split at h
    · exact absurd h (by simp)
    · rename_i txs htxs
      split at h
      · split at h
        · exact absurd h (by simp)
        · rename_i s3 hs3
          simp only [Outcome.ok.injEq] at h
          obtain ⟨rfl, -⟩ := h
          exact preservesStores_trans h2 (sendCoins_pres hs3)
      · simp only [Outcome.ok.injEq] at h
        obtain ⟨rfl, -⟩ := h
        exact h2

theorem transferCore_ok_pres {cid : Nat} {cr : String} {i : TransferInstr} {s s' : State}
    {tr : List Effect} (h : transferCore cid cr i s = .ok s' tr) : preservesStores s s' := by
  unfold transferCore at h
  split at h
  · exact absurd h (by simp)
  · split at h
    · exact absurd h (by simp)
    · split at h
      · split at h
        · exact absurd h (by simp)
        · split at h
          · split at h
            · exact absurd h (by simp)
            · split at h
              · exact absurd h (by simp)
              · exact transferApply_ok_pres h
          · exact absurd h (by simp)
      · exact absurd h (by simp)

theorem executeTransfer_ok_pres {cid : Nat} {cr : String} {body : List Nat} {s s' : State}
    {tr : List Effect} (h : executeTransfer cid cr body s = .ok s' tr) : preservesStores s s' := by
  unfold executeTransfer at h
  split at h
  · exact absurd h (by simp)
  · exact transferCore_ok_pres h

theorem mintTrace_ledger (w : Bool) (idf : String) (v : Int) :
    ∀ eff ∈ (if w then [Effect.mint idf v] else []), isLedgerOp eff = true := by
  cases w <;> simp [isLedgerOp]

theorem transferApply_fail_ledger {cr : String} {i : TransferInstr} {idf : String} {w : Bool}
    {amount fee : Coin} {s : State} {e : Err} {tr : List Effect}
    (h : transferApply cr i idf w amount fee s = .fail e tr) :
    ∀ eff ∈ tr, isLedgerOp eff = true := by
  unfold transferApply at h
  split at h
  · simp only [Outcome.fail.injEq] at h
    obtain ⟨-, rfl⟩ := h
    exact mintTrace_ledger w idf amount.amount
  · split at h
    · simp only [Outcome.fail.injEq] at h
      obtain ⟨-, rfl⟩ := h
      intro eff hm
      rcases List.mem_append.mp hm with hm1 | hm2
      · exact mintTrace_ledger w idf amount.amount eff hm1
      · simp only [List.mem_singleton] at hm2
        subst hm2
        rfl
    · split at h
      · split at h
        · simp only [Outcome.fail.injEq] at h
          obtain ⟨-, rfl⟩ := h
          intro eff hm
          rcases List.mem_append.mp hm with hm1 | hm2
          · exact mintTrace_ledger w idf amount.amount eff hm1
          · simp only [List.mem_singleton] at hm2
            subst hm2
            rfl
        · exact absurd h (by simp)
      · exact absurd h (by simp)

theorem transferApply_ok_no_replay {cr : String} {i : TransferInstr} {idf : String} {w : Bool}
    {amount fee : Coin} {s s' : State} {tr : List Effect}
    (h : transferApply cr i idf w amount fee s = .ok s' tr) :
    ∀ eff ∈ tr, isReplayEff eff = false := by
  have hmint : ∀ eff ∈ (if w then [Effect.mint idf amount.amount] else []),
      isReplayEff eff = false := by cases w <;> simp [isReplayEff]
  unfold transferApply at h
  split at h
  · exact absurd h (by simp)
  · split at h
    · exact absurd h (by simp)
    · split at h
      · split at h
        · exact absurd h (by simp)
        · simp only [Outcome.ok.injEq] at h
          obtain ⟨-, rfl⟩ := h
          intro eff hm
          rcases List.mem_append.mp hm with hm1 | hm2
          · exact hmint eff hm1
          · simp only [List.mem_cons, List.not_mem_nil, or_false] at hm2
            rcases hm2 with rfl | rfl | rfl <;> rfl
      · simp only [Outcome.ok.injEq] at h
        obtain ⟨-, rfl⟩ := h
        intro eff hm
        rcases List.mem_append.mp hm with hm1 | hm2
        · exact hmint eff hm1
        · simp only [List.mem_cons, List.not_mem_nil, or_false] at hm2
          rcases hm2 with rfl | rfl <;> rfl

theorem transferCore_fail_ledger {cid : Nat} {cr : String} {i : TransferInstr} {s : State}
    {e : Err} {tr : List Effect} (h : transferCore cid cr i s = .fail e tr) :
    ∀ eff ∈ tr, isLedgerOp eff = true := by
  unfold transferCore at h
  split at h
  · simp only [Outcome.fail.injEq] at h
    obtain ⟨-, rfl⟩ := h
    simp
  · split at h
    · simp only [Outcome.fail.injEq] at h
      obtain ⟨-, rfl⟩ := h
      simp
    · split at h
      · split at h
        · simp only [Outcome.fail.injEq] at h
          obtain ⟨-, rfl⟩ := h
          simp
        · split at h
          · split at h
            · simp only [Outcome.fail.injEq] at h
              obtain ⟨-, rfl⟩ := h
              simp
            · split at h
              · simp only [Outcome.fail.injEq] at h
                obtain ⟨-, rfl⟩ := h
                simp
              · exact transferApply_fail_ledger h
          · simp only [Outcome.fail.injEq] at h
            obtain ⟨-, rfl⟩ := h
            simp
      · simp only [Outcome.fail.injEq] at h
        obtain ⟨-, rfl⟩ := h
        simp

theorem transferCore_ok_no_replay {cid : Nat} {cr : String} {i : TransferInstr} {s s' : State}
    {tr : List Effect} (h : transferCore cid cr i s = .ok s' tr) :
    ∀ eff ∈ tr, isReplayEff eff = false := by
  unfold transferCore at h
  split at h
  · exact absurd h (by simp)
  · split at h
    · exact absurd h (by simp)
    · split at h
      · split at h
        · exact absurd h (by simp)
        · split at h
          · split at h
            · exact absurd h (by simp)
            · split at h
              · exact absurd h (by simp)
              · exact transferApply_ok_no_replay h
          · exact absurd h (by simp)
      · exact absurd h (by simp)

theorem getChainRegistration_write (s : State) (m : Metadata) (id : String) (q : Nat) (c : Nat) :
    getChainRegistration (setRollback (setDenomMetaData s m) id q) c = getChainRegistration s c := rfl

theorem getRollback_setRollback_self (s : State) (id : String) (q : Nat) :
    getRollback (setRollback s id q) id = some q := by
  simp [getRollback, setRollback]

theorem getDenomMetaData_setRollback (s : State) (id : String) (q : Nat) (d : String) :
    getDenomMetaData (setRollback s id q) d = getDenomMetaData s d := rfl

theorem getDenomMetaData_setDenomMetaData_self (s : State) (m : Metadata) (d : String)
    (h : m.base = d) : getDenomMetaData (setDenomMetaData s m) d = some m := by
  simp [getDenomMetaData, setDenomMetaData, h]

theorem assetMetaCore_fail_empty {cid seq : Nat} {i : AssetMetaInstr} {s : State} {e : Err}
    {tr : List Effect} (h : assetMetaCore cid seq i s = .fail e tr) : tr = [] := by
  unfold assetMetaCore at h
  split at h
  · exact (Outcome.fail.injEq _ _ _ _ |>.mp h).2.symm
  · split at h
    · exact (Outcome.fail.injEq _ _ _ _ |>.mp h).2.symm
    · split at h
      · exact (Outcome.fail.injEq _ _ _ _ |>.mp h).2.symm
      · split at h
        · exact (Outcome.fail.injEq _ _ _ _ |>.mp h).2.symm
        · split at h
          · exact (Outcome.fail.injEq _ _ _ _ |>.mp h).2.symm
          · exact absurd h (by simp)

theorem assetMetaCore_ok_inv {cid seq : Nat} {i : AssetMetaInstr} {s s' : State}
    {tr : List Effect} (h : assetMetaCore cid seq i s = .ok s' tr) :
    i.tokenChain ≠ cid ∧ IsWORMToken i.tokenChain i.tokenAddress = false ∧
    (getChainRegistration s i.tokenChain).isSome = true ∧
    rollbackBlocked s (GetWrappedCoinIdentifier i.tokenChain i.tokenAddress) seq = false ∧
    metaCheck s (GetWrappedCoinIdentifier i.tokenChain i.tokenAddress)
      ("b" ++ GetWrappedCoinIdentifier i.tokenChain i.tokenAddress) i.decimals = none ∧
    s' = setRollback (setDenomMetaData s (regMetadata i))
      (GetWrappedCoinIdentifier i.tokenChain i.tokenAddress) seq ∧
    tr = [.setDenomMeta (regMetadata i),
      .setRollback (GetWrappedCoinIdentifier i.tokenChain i.tokenAddress) seq,
      .emitAssetMeta ⟨i.tokenChain, i.tokenAddress, i.name, i.symbol, i.decimals⟩] := by
  unfold assetMetaCore at h
  split at h
  · exact absurd h (by simp)
  · rename_i hchain
    split at h
    · exact absurd h (by simp)
    · rename_i hworm
      split at h
      · exact absurd h (by simp)
      · rename_i reg hreg
        split at h
        · exact absurd h (by simp)
        · rename_i hroll
          split at h
          · exact absurd h (by simp)
          · rename_i hmc
            simp only [Outcome.ok.injEq] at h
            obtain ⟨rfl, rfl⟩ := h
            exact ⟨hchain, Bool.eq_false_iff.mpr hworm, by rw [hreg]; rfl,
              Bool.eq_false_iff.mpr hroll, hmc, rfl, rfl⟩

theorem assetMetaCore_eval_meta {cid seq : Nat} {i : AssetMetaInstr} {s : State}
    {reg : ChainRegistration}
    (h1 : i.tokenChain ≠ cid) (h2 : IsWORMToken i.tokenChain i.tokenAddress = false)
    (h3 : getChainRegistration s i.tokenChain = some reg)
    (h4 : rollbackBlocked s (GetWrappedCoinIdentifier i.tokenChain i.tokenAddress) seq = false) :
    assetMetaCore cid seq i s =
      match metaCheck s (GetWrappedCoinIdentifier i.tokenChain i.tokenAddress)
          ("b" ++ GetWrappedCoinIdentifier i.tokenChain i.tokenAddress) i.decimals with
      | some e => .fail e []
      | none => .ok (setRollback (setDenomMetaData s (regMetadata i))
            (GetWrappedCoinIdentifier i.tokenChain i.tokenAddress) seq)
          [.setDenomMeta (regMetadata i),
           .setRollback (GetWrappedCoinIdentifier i.tokenChain i.tokenAddress) seq,
           .emitAssetMeta ⟨i.tokenChain, i.tokenAddress, i.name, i.symbol, i.decimals⟩] := by
  unfold assetMetaCore
  rw [if_neg h1, h2, h3, h4]
  simp only [Bool.false_eq_true, if_false]

theorem executeAssetMeta_ok_facts {cid seq : Nat} {body : List Nat} {s s' : State}
    {tr : List Effect} (h : executeAssetMeta cid seq body s = .ok s' tr) :
    (s'.config = s.config ∧ s'.replay = s.replay) ∧
    (∀ eff ∈ tr, isReplayEff eff = false) := by
  unfold executeAssetMeta at h
  split at h
  · exact absurd h (by simp)
  · obtain ⟨-, -, -, -, -, rfl, rfl⟩ := assetMetaCore_ok_inv h
    refine ⟨⟨rfl, rfl⟩, ?_⟩
    intro eff hm
    simp only [List.mem_cons, List.not_mem_nil, or_false] at hm
    rcases hm with rfl | rfl | rfl <;> rfl

theorem executeTransfer_ok_facts {cid : Nat} {cr : String} {body : List Nat} {s s' : State}
    {tr : List Effect} (h : executeTransfer cid cr body s = .ok s' tr) :
    (s'.config = s.config ∧ s'.replay = s.replay) ∧
    (∀ eff ∈ tr, isReplayEff eff = false) := by
  unfold executeTransfer at h
  split at h
  · exact absurd h (by simp)
  · exact ⟨⟨(transferCore_ok_pres h).1, (transferCore_ok_pres h).2.1⟩,
      transferCore_ok_no_replay h⟩

theorem executeTransfer_fail_ledger {cid : Nat} {cr : String} {body : List Nat} {s : State}
    {e : Err} {tr : List Effect} (h : executeTransfer cid cr body s = .fail e tr) :
    ∀ eff ∈ tr, isLedgerOp eff = true := by
  unfold executeTransfer at h
  split at h
  · simp only [Outcome.fail.injEq] at h
    obtain ⟨-, rfl⟩ := h
    simp
  · exact transferCore_fail_ledger h

theorem executeAssetMeta_fail_empty {cid seq : Nat} {body : List Nat} {s : State}
    {e : Err} {tr : List Effect} (h : executeAssetMeta cid seq body s = .fail e tr) :
    tr = [] := by
  unfold executeAssetMeta at h
  split at h
  · exact (Outcome.fail.injEq _ _ _ _ |>.mp h).2.symm
  · exact assetMetaCore_fail_empty h

theorem inner_ok_facts {cid sq : Nat} {cr : String} {pid : Nat} {body : List Nat}
    {s s1 : State} {tr1 : List Effect}
    (h : (if pid = 1 then executeTransfer cid cr body s
          else if pid = 2 then executeAssetMeta cid sq body s
          else .fail .unknownPayloadType []) = .ok s1 tr1) :
    (s1.config = s.config ∧ s1.replay = s.replay) ∧
    (∀ eff ∈ tr1, isReplayEff eff = false) := by
  split at h
  · exact executeTransfer_ok_facts h
  · split at h
    · exact executeAssetMeta_ok_facts h
    · exact absurd h (by simp)

theorem inner_fail_ledger {cid sq : Nat} {cr : String} {pid : Nat} {body : List Nat}
    {s : State} {e : Err} {tr : List Effect}
    (h : (if pid = 1 then executeTransfer cid cr body s
          else if pid = 2 then executeAssetMeta cid sq body s
          else .fail .unknownPayloadType []) = .fail e tr) :
    ∀ eff ∈ tr, isLedgerOp eff = true := by
  split at h
  · exact executeTransfer_fail_ledger h
  · split at h
    · rw [executeAssetMeta_fail_empty h]
      simp
    · simp only [Outcome.fail.injEq] at h
      obtain ⟨-, rfl⟩ := h
      simp

theorem ExecuteVAA_ok_inv {s : State} {v : VerifiedMessage} {cr : String} {s' : State}
    {tr : List Effect} (h : ExecuteVAA s v cr = .ok s' tr) :
    ∃ cfg s1 tr1, s.config = some cfg ∧ s1.config = s.config ∧ s1.replay = s.replay ∧
      s' = addReplay s1 v.digest ∧ tr = tr1 ++ [.setReplay v.digest] ∧
      (∀ eff ∈ tr1, isReplayEff eff = false) := by
  unfold ExecuteVAA at h
  split at h
  · exact absurd h (by simp)
  · rename_i cfg hcfg
    split at h
    · exact absurd h (by simp)
    · split at h
      · exact absurd h (by simp)
      · split at h
        · exact absurd h (by simp)
        · split at h
          · exact absurd h (by simp)
          · split at h
            · exact absurd h (by simp)
            · rename_i s1 tr1 hinner
              simp only [Outcome.ok.injEq] at h
              obtain ⟨rfl, rfl⟩ := h
              obtain ⟨⟨hc, hr⟩, hnr⟩ := inner_ok_facts hinner
              exact ⟨cfg, s1, tr1, hcfg, hc, hr, rfl, rfl, hnr⟩

theorem ExecuteVAA_fail_ledger {s : State} {v : VerifiedMessage} {cr : String} {e : Err}
    {tr : List Effect} (h : ExecuteVAA s v cr = .fail e tr) :
    ∀ eff ∈ tr, isLedgerOp eff = true := by
  unfold ExecuteVAA at h
  split at h
  · simp only [Outcome.fail.injEq] at h
    obtain ⟨-, rfl⟩ := h
    simp
  · split at h
    · simp only [Outcome.fail.injEq] at h
      obtain ⟨-, rfl⟩ := h
      simp
    · split at h
      · simp only [Outcome.fail.injEq] at h
        obtain ⟨-, rfl⟩ := h
        simp
      · split at h
        · simp only [Outcome.fail.injEq] at h
          obtain ⟨-, rfl⟩ := h
          simp
        · split at h
          · simp only [Outcome.fail.injEq] at h
            obtain ⟨-, rfl⟩ := h
            simp
          · split at h
            · rename_i e' tr' hinner
              simp only [Outcome.fail.injEq] at h
              obtain ⟨rfl, rfl⟩ := h
              exact inner_fail_ledger hinner
            · exact absurd h (by simp)

/-! ## Claims -/

/-- C1: after one successful `ExecuteVAA` call for a digest, any later call
with a message carrying the same digest fails with `AlreadyExecuted`; and a
failing call performs no ReplayRecord write, so its digest can be retried. -/
theorem C1_replay_invariant (s : State) (v : VerifiedMessage) (cr : String) :
    (∀ s' tr, ExecuteVAA s v cr = .ok s' tr →
      ∀ v2 cr2, v2.digest = v.digest → ExecuteVAA s' v2 cr2 = .fail .alreadyExecuted [])
    ∧ (∀ e tr, ExecuteVAA s v cr = .fail e tr → ∀ d, Effect.setReplay d ∉ tr) := by
  constructor
  · intro s' tr hok v2 cr2 hdg
    obtain ⟨cfg, s1, tr1, hcfg, hc, hr, rfl, -, -⟩ := ExecuteVAA_ok_inv hok
    have hcfg' : (addReplay s1 v.digest).config = some cfg := by
      show s1.config = some cfg
      rw [hc, hcfg]
    have hmem2 : v2.digest ∈ (addReplay s1 v.digest).replay := by
      show v2.digest ∈ v.digest :: s1.replay
      rw [hdg]
      exact List.mem_cons_self _ _
    unfold ExecuteVAA
    rw [hcfg']
    simp [hmem2]
  · intro e tr hfail d hmem
    have h2 := ExecuteVAA_fail_ledger hfail _ hmem
    simp [isLedgerOp] at h2

/-- C1 witness: a concrete successful AssetMeta execution of `c1Msg`, then
the same digest is rejected with `AlreadyExecuted`. -/
theorem C1_witness : ExecuteVAA c1Mid c1Msg "bob" = .fail .alreadyExecuted [] :=
  (C1_replay_invariant baseState c1Msg "alice").1 c1Mid c1Tr (by decide) c1Msg "bob" rfl

/-- Reading a big-endian `uint16` only inspects the first two bytes. -/
theorem beUint16_take2 (l : List Nat) : beUint16 (l.take 2) = beUint16 l := by
  match l with
  | [] => rfl
  | [a] => rfl
  | a :: b :: rest => rfl

/-- Transfer decoding ignores the reserved body bytes [66,78): two bodies
agreeing outside that range decode identically. -/
theorem decodeTransfer_eq_of {b1 b2 : List Nat}
    (hpre : b1.take 66 = b2.take 66) (hsuf : b1.drop 78 = b2.drop 78) :
    decodeTransfer b1 = decodeTransfer b2 := by
  have h32 : b1.take 32 = b2.take 32 := by
    have h := congrArg (List.take 32) hpre
    simpa [List.take_take] using h
  have hdrop32 : (b1.drop 32).take 32 = (b2.drop 32).take 32 := by
    have h := congrArg (List.drop 32) hpre
    rw [List.drop_take, List.drop_take] at h
    have h2 := congrArg (List.take 32) h
    simpa [List.take_take] using h2
  have h64 : beUint16 (b1.drop 64) = beUint16 (b2.drop 64) := by
    have h := congrArg (List.drop 64) hpre
    rw [List.drop_take, List.drop_take] at h
    rw [← beUint16_take2 (b1.drop 64), ← beUint16_take2 (b2.drop 64)]
    exact congrArg beUint16 h
  have h78 : (b1.drop 78).take 20 = (b2.drop 78).take 20 := by rw [hsuf]
  have e981 : (b1.drop 78).drop 20 = b1.drop 98 := List.drop_drop 20 78 b1
  have e982 : (b2.drop 78).drop 20 = b2.drop 98 := List.drop_drop 20 78 b2
  have h98 : beUint16 (b1.drop 98) = beUint16 (b2.drop 98) := by
    rw [← e981, ← e982, hsuf]
  have e1001 : (b1.drop 78).drop 22 = b1.drop 100 := List.drop_drop 22 78 b1
  have e1002 : (b2.drop 78).drop 22 = b2.drop 100 := List.drop_drop 22 78 b2
  have h100 : (b1.drop 100).take 32 = (b2.drop 100).take 32 := by
    rw [← e1001, ← e1002, hsuf]
  unfold decodeTransfer
  rw [h32, hdrop32, h64, h78, h98, h100]

/-- C9: two Transfer-tagged payloads of body length 132 that differ only in
the reserved body bytes [66,78), processed from the same state with the same
sender, produce identical outcomes (result, state writes and event). -/
theorem C9_reserved_bytes (s : State) (cr dg : String) (ec : Nat) (ea : List Nat) (sq : Nat)
    (b1 b2 : List Nat) (hl1 : b1.length = 132) (hl2 : b2.length = 132)
    (hpre : b1.take 66 = b2.take 66) (hsuf : b1.drop 78 = b2.drop 78) :
    ExecuteVAA s ⟨dg, ec, ea, sq, 1 :: b1⟩ cr = ExecuteVAA s ⟨dg, ec, ea, sq, 1 :: b2⟩ cr := by
  have hET : ∀ cid, executeTransfer cid cr b1 s = executeTransfer cid cr b2 s := by
    intro cid
    unfold executeTransfer
    rw [hl1, hl2, decodeTransfer_eq_of hpre hsuf]
  unfold ExecuteVAA
  cases hc : s.config
  · rfl
  · rename_i cfg
    dsimp only
    by_cases hrep : dg ∈ s.replay
    · simp [hrep]
    · simp only [hrep]
      cases hreg : getChainRegistration s ec
      · simp
      · rename_i reg
        by_cases hea : ea = reg.emitterAddress
        · simp [hea, hET cfg.chainId]
        · simp [hea]

/-- Prefixing `b` always changes a string (the base denom differs from the
display identifier). -/
theorem b_append_ne (t : String) : ("b" ++ t) ≠ t := by
  intro hcontra
  have hlen := congrArg String.length hcontra
  rw [String.length_append] at hlen
  have hb : ("b" : String).length = 1 := rfl
  omega

/-- Core of the decimal-immutability claim at the instruction level: after a
successful registration, a second registration for the same pair with a
strictly higher sequence fails `ChangeDecimals` on different decimals and
succeeds (rewriting name and symbol) on equal decimals. -/
theorem C5_core (cid seq1 seq2 : Nat) (i1 i2 : AssetMetaInstr) (s0 s1 : State) (tr1 : List Effect)
    (h1 : assetMetaCore cid seq1 i1 s0 = .ok s1 tr1)
    (hc : i2.tokenChain = i1.tokenChain) (ha : i2.tokenAddress = i1.tokenAddress)
    (hseq : seq1 < seq2) :
    (i2.decimals ≠ i1.decimals → assetMetaCore cid seq2 i2 s1 = .fail .changeDecimals [])
    ∧ (i2.decimals = i1.decimals → assetMetaCore cid seq2 i2 s1 =
        .ok (setRollback (setDenomMetaData s1 (regMetadata i2))
              (GetWrappedCoinIdentifier i2.tokenChain i2.tokenAddress) seq2)
          [.setDenomMeta (regMetadata i2),
           .setRollback (GetWrappedCoinIdentifier i2.tokenChain i2.tokenAddress) seq2,
           .emitAssetMeta ⟨i2.tokenChain, i2.tokenAddress, i2.name, i2.symbol, i2.decimals⟩]) := by
  obtain ⟨hc1, hw1, hreg1, hrb1, hmc1, hs1, -⟩ := assetMetaCore_ok_inv h1
  obtain ⟨reg, hreg⟩ : ∃ reg, getChainRegistration s0 i1.tokenChain = some reg := by
    cases hx : getChainRegistration s0 i1.tokenChain
    · rw [hx] at hreg1
      simp at hreg1
    · exact ⟨_, rfl⟩
  have hreg2 : getChainRegistration s1 i2.tokenChain = some reg := by
    rw [hs1, hc, getChainRegistration_write]
    exact hreg
  have hrb2 : rollbackBlocked s1 (GetWrappedCoinIdentifier i2.tokenChain i2.tokenAddress) seq2
      = false := by
    rw [hc, ha, hs1]
    unfold rollbackBlocked
    rw [getRollback_setRollback_self]
    exact decide_eq_false (by omega)
  have hmd : getDenomMetaData s1
      ("b" ++ GetWrappedCoinIdentifier i1.tokenChain i1.tokenAddress) = some (regMetadata i1) := by
    rw [hs1, getDenomMetaData_setRollback]
    exact getDenomMetaData_setDenomMetaData_self _ _ _ rfl
  have hbne : (("b" ++ GetWrappedCoinIdentifier i1.tokenChain i1.tokenAddress : String) ==
      GetWrappedCoinIdentifier i1.tokenChain i1.tokenAddress) = false :=
    beq_eq_false_iff_ne.mpr (b_append_ne _)
  have hmc2 : metaCheck s1 (GetWrappedCoinIdentifier i2.tokenChain i2.tokenAddress)
      ("b" ++ GetWrappedCoinIdentifier i2.tokenChain i2.tokenAddress) i2.decimals =
      (if (i1.decimals != i2.decimals) = true then some Err.changeDecimals else none) := by
    rw [hc, ha]
    unfold metaCheck
    simp only [hmd]
    rw [if_neg (show ¬ (regMetadata i1).display ≠
      GetWrappedCoinIdentifier i1.tokenChain i1.tokenAddress from by simp [regMetadata])]
    simp only [regMetadata, List.any_cons, List.any_nil, hbne, Bool.false_and, Bool.false_or,
      Bool.or_false, beq_self_eq_true, Bool.true_and]
  have hchain2 : i2.tokenChain ≠ cid := by rw [hc]; exact hc1
  have hworm2 : IsWORMToken i2.tokenChain i2.tokenAddress = false := by rw [hc, ha]; exact hw1
  have heval := @assetMetaCore_eval_meta cid seq2 i2 s1 reg hchain2 hworm2 hreg2 hrb2
  constructor
  · intro hd
    rw [heval, hmc2, if_pos (by simp [bne_iff_ne]; exact fun x => hd x.symm)]
  · intro hd
    rw [heval, hmc2, if_neg (by simp [bne_iff_ne, hd])]

/-- C5 (amended): for a pair of AssetMeta registrations of the same
(tokenChain, tokenAddress) where the second carries a strictly higher
sequence: different decimals on the second call fail `ChangeDecimals`, and
identical decimals succeed and update the stored name and symbol.  The
sequence condition is forced by the code: the rollback check precedes the
decimal check (see `C5_counterexample`). -/
theorem C5_decimal_immutability (cid seq1 seq2 : Nat) (b1 b2 : List Nat) (s0 s1 : State)
    (tr1 : List Effect)
    (h1 : executeAssetMeta cid seq1 b1 s0 = .ok s1 tr1)
    (hlen2 : b2.length = 99)
    (hc : (decodeAssetMeta b2).tokenChain = (decodeAssetMeta b1).tokenChain)
    (ha : (decodeAssetMeta b2).tokenAddress = (decodeAssetMeta b1).tokenAddress)
    (hseq : seq1 < seq2) :
    ((decodeAssetMeta b2).decimals ≠ (decodeAssetMeta b1).decimals →
      executeAssetMeta cid seq2 b2 s1 = .fail .changeDecimals [])
    ∧ ((decodeAssetMeta b2).decimals = (decodeAssetMeta b1).decimals →
      ∃ s2 tr2, executeAssetMeta cid seq2 b2 s1 = .ok s2 tr2 ∧
        getDenomMetaData s2 ("b" ++ GetWrappedCoinIdentifier (decodeAssetMeta b2).tokenChain
          (decodeAssetMeta b2).tokenAddress) = some (regMetadata (decodeAssetMeta b2)) ∧
        (regMetadata (decodeAssetMeta b2)).name = (decodeAssetMeta b2).name ∧
        (regMetadata (decodeAssetMeta b2)).symbol = (decodeAssetMeta b2).symbol) := by
  have hexec2 : executeAssetMeta cid seq2 b2 s1 =
      assetMetaCore cid seq2 (decodeAssetMeta b2) s1 := by
    unfold executeAssetMeta
    rw [if_neg (by rw [hlen2]; simp)]
  have h1' : assetMetaCore cid seq1 (decodeAssetMeta b1) s0 = .ok s1 tr1 := by
    unfold executeAssetMeta at h1
    split at h1
    · exact absurd h1 (by simp)
    · exact h1
  have hcore := C5_core cid seq1 seq2 (decodeAssetMeta b1) (decodeAssetMeta b2) s0 s1 tr1
    h1' hc ha hseq
  constructor
  · intro hd
    rw [hexec2]
    exact hcore.1 hd
  · intro hd
    rw [hexec2]
    refine ⟨_, _, hcore.2 hd, ?_, rfl, rfl⟩
    rw [getDenomMetaData_setRollback]
    exact getDenomMetaData_setDenomMetaData_self _ _ _ rfl

/-- C5 counterexample: metadata for the pair exists and the second
registration carries different decimals (7 versus 6), yet with a non-fresh
sequence the call fails `AssetMetaRollback`, not `ChangeDecimals` as the
claim states. -/
theorem C5_counterexample :
    executeAssetMeta 1 5 (amBody 6) baseState = .ok c5Mid c5Tr1 ∧
    (decodeAssetMeta (amBody 7)).decimals ≠ (decodeAssetMeta (amBody 6)).decimals ∧
    (getDenomMetaData c5Mid ("b" ++ GetWrappedCoinIdentifier 3 tok5)).isSome = true ∧
    executeAssetMeta 1 5 (amBody 7) c5Mid = .fail .assetMetaRollback [] := by
  decide

/-- C5 witness: concrete second registration with decimals 7 against a
stored registration with decimals 6 at a fresh sequence fails
`ChangeDecimals`. -/
theorem C5_witness : executeAssetMeta 1 6 (amBody 7) c5Mid = .fail .changeDecimals [] :=
  (C5_decimal_immutability 1 5 6 (amBody 6) (amBody 7) baseState c5Mid c5Tr1
    (by decide) (by decide) (by decide) (by decide) (by decide)).1 (by decide)

/-- C9 witness: two concrete Transfer payloads differing only in reserved
bytes produce the same outcome. -/
theorem C9_witness :
    ExecuteVAA c2State ⟨"d9", 2, [7], 1, 1 :: c9Body1⟩ "alice" =
    ExecuteVAA c2State ⟨"d9", 2, [7], 1, 1 :: c9Body2⟩ "alice" :=
  C9_reserved_bytes c2State "alice" "d9" 2 [7] 1 c9Body1 c9Body2 (by decide) (by decide)
    (by decide) (by decide)

/-- C2 counterexample: a concrete transfer whose principal send succeeds and
whose fee send then fails returns a failure after a ledger send was already
performed in the same call, so a failure return is not always preceded by
zero writes. -/
theorem C2_counterexample :
    ExecuteVAA c2State c2Msg "alice" = .fail .sendFailed c2Trace ∧ c2Trace ≠ [] :=
  ⟨by decide, by decide⟩

/-- C2 (amended): on success the ReplayRecord write is the last effect of the
call and occurs only there; on failure no ReplayRecord, metadata or rollback
write has been performed — only ledger mint/send operations can precede a
failure (and are undone by the surrounding atomic commit, see
`C2_counterexample` for such a failure). -/
theorem C2_replay_write_last (s : State) (v : VerifiedMessage) (cr : String) :
    (∀ s' tr, ExecuteVAA s v cr = .ok s' tr →
      ∃ tr0, tr = tr0 ++ [Effect.setReplay v.digest] ∧ ∀ d, Effect.setReplay d ∉ tr0)
    ∧ (∀ e tr, ExecuteVAA s v cr = .fail e tr → ∀ eff ∈ tr, isLedgerOp eff = true) := by
  constructor
  · intro s' tr hok
    obtain ⟨cfg, s1, tr1, -, -, -, -, rfl, hnr⟩ := ExecuteVAA_ok_inv hok
    refine ⟨tr1, rfl, ?_⟩
    intro d hmem
    have hx := hnr _ hmem
    simp [isReplayEff] at hx
  · intro e tr hfail
    exact ExecuteVAA_fail_ledger hfail

/-- C2 witness: the effect preceding the concrete failing fee send is a
ledger operation. -/
theorem C2_witness : isLedgerOp (Effect.send moduleAddr c2To "uatom" 6) = true :=
  (C2_replay_write_last c2State c2Msg "alice").2 .sendFailed c2Trace (by decide)
    (Effect.send moduleAddr c2To "uatom" 6) (by decide)

/-- C6: a message passing the replay check from an unregistered emitter chain
fails `UnregisteredChain`; from a registered chain with a mismatched emitter
address it fails `UnregisteredEmitter`. -/
theorem C6_emitter_authentication (s : State) (v : VerifiedMessage) (cr : String)
    (cfg : Config) (hcfg : s.config = some cfg)
    (hreplay : v.digest ∉ s.replay) :
    (getChainRegistration s v.emitterChain = none →
      ExecuteVAA s v cr = .fail .unregisteredChain [])
    ∧ (∀ reg, getChainRegistration s v.emitterChain = some reg →
        v.emitterAddress ≠ reg.emitterAddress →
        ExecuteVAA s v cr = .fail .unregisteredEmitter []) := by
  constructor
  · intro hnone
    unfold ExecuteVAA
    rw [hcfg]
    simp [hreplay, hnone]
  · intro reg hsome hne
    unfold ExecuteVAA
    rw [hcfg]
    simp [hreplay, hsome, hne]

/-- C6 witness: a concrete message from unregistered chain 2 fails
`UnregisteredChain`. -/
theorem C6_witness :
    ExecuteVAA c6State c6Msg "x" = .fail .unregisteredChain [] :=
  (C6_emitter_authentication c6State c6Msg "x" ⟨1⟩ (by decide) (by decide)).1 (by decide)

/-- C4: an AssetMeta registration whose rollback record is at a sequence at
least the message sequence fails `AssetMetaRollback`; a successful
registration sets the record to the message sequence, which is strictly
above any prior record, so the sequence never decreases. -/
theorem C4_rollback_protection (cid seq : Nat) (i : AssetMetaInstr) (s : State)
    (reg : ChainRegistration)
    (hc : i.tokenChain ≠ cid)
    (hw : IsWORMToken i.tokenChain i.tokenAddress = false)
    (hr : getChainRegistration s i.tokenChain = some reg) :
    (∀ r, getRollback s (GetWrappedCoinIdentifier i.tokenChain i.tokenAddress) = some r →
      seq ≤ r → assetMetaCore cid seq i s = .fail .assetMetaRollback [])
    ∧ (∀ s' tr, assetMetaCore cid seq i s = .ok s' tr →
        getRollback s' (GetWrappedCoinIdentifier i.tokenChain i.tokenAddress) = some seq ∧
        (∀ r, getRollback s (GetWrappedCoinIdentifier i.tokenChain i.tokenAddress) = some r →
          r < seq)) := by
  constructor
  · intro r hrec hle
    have hb : rollbackBlocked s (GetWrappedCoinIdentifier i.tokenChain i.tokenAddress) seq = true := by
      unfold rollbackBlocked
      rw [hrec]
      exact decide_eq_true hle
    unfold assetMetaCore
    rw [if_neg hc, hw, hr]
    simp [hb]
  · intro s' tr hok
    obtain ⟨-, -, -, hrbf, -, rfl, -⟩ := assetMetaCore_ok_inv hok
    refine ⟨getRollback_setRollback_self _ _ _, ?_⟩
    intro r hrec
    unfold rollbackBlocked at hrbf
    rw [hrec] at hrbf
    have := of_decide_eq_false hrbf
    omega

/-- C4 witness: a concrete registration at sequence 9 against a rollback
record at sequence 9 fails `AssetMetaRollback`. -/
theorem C4_witness : assetMetaCore 1 9 c4Instr c4State = .fail .assetMetaRollback [] :=
  (C4_rollback_protection 1 9 c4Instr c4State ⟨3, [9]⟩ (by decide) (by decide)
    (by decide)).1 9 (by decide) (by decide)

/-- C10: for a foreign, non-native token pair the Transfer identifier equals
the Asset Registrar base denom (both are `b` prefixed to the wrapped coin
identifier), and after a successful registration the transfer-side metadata
lookup under that identifier finds the registered metadata. -/
theorem C10_identifier_agreement (cid seq : Nat) (i : AssetMetaInstr) (s s' : State)
    (tr : List Effect)
    (hw : IsWORMToken i.tokenChain i.tokenAddress = false)
    (hc : i.tokenChain ≠ cid)
    (hok : assetMetaCore cid seq i s = .ok s' tr) :
    (resolveIdentifier cid i.tokenChain i.tokenAddress).1 =
      "b" ++ GetWrappedCoinIdentifier i.tokenChain i.tokenAddress
    ∧ (regMetadata i).base = "b" ++ GetWrappedCoinIdentifier i.tokenChain i.tokenAddress
    ∧ getDenomMetaData s' ((resolveIdentifier cid i.tokenChain i.tokenAddress).1) =
        some (regMetadata i) := by
  have h1 : resolveIdentifier cid i.tokenChain i.tokenAddress =
      ("b" ++ GetWrappedCoinIdentifier i.tokenChain i.tokenAddress, true) := by
    unfold resolveIdentifier
    rw [hw]
    simp [hc]
  obtain ⟨-, -, -, -, -, rfl, -⟩ := assetMetaCore_ok_inv hok
  refine ⟨by rw [h1], rfl, ?_⟩
  rw [h1]
  rw [show ((("b" ++ GetWrappedCoinIdentifier i.tokenChain i.tokenAddress : String), true).1) =
    ("b" ++ GetWrappedCoinIdentifier i.tokenChain i.tokenAddress : String) from rfl]
  rw [getDenomMetaData_setRollback]
  exact getDenomMetaData_setDenomMetaData_self _ _ _ rfl

/-- C10 witness: concrete agreement of the transfer lookup key and the
registrar write key, and a successful lookup after registration. -/
theorem C10_witness :
    (resolveIdentifier 1 3 tok5).1 = "b" ++ GetWrappedCoinIdentifier 3 tok5
    ∧ (regMetadata c4Instr).base = "b" ++ GetWrappedCoinIdentifier 3 tok5
    ∧ getDenomMetaData c10Mid ((resolveIdentifier 1 3 tok5).1) = some (regMetadata c4Instr) :=
  C10_identifier_agreement 1 7 c4Instr baseState c10Mid c10Tr (by decide) (by decide) (by decide)

/-- C3 counterexample: for a token address with the name bytes first and the
NUL padding last, the resolved identifier differs from the trailing-NUL
stripped decoding of the spec — the code strips LEADING NUL bytes
(`strings.TrimLeft`). -/
theorem C3_counterexample :
    IsWORMToken 1 c3Addr = false ∧
    (resolveIdentifier 1 1 c3Addr).1 ≠ specTrailingStrippedIdentifier c3Addr := by
  decide

/-- C3 (amended): for a non-native-token pair whose token chain is the local
chain id, the resolved identifier is the decoding of the token address with
its LEADING NUL bytes stripped, and the wrapped flag is false. -/
theorem C3_native_identifier (cid c : Nat) (a : List Nat)
    (hw : IsWORMToken c a = false) (hc : c = cid) :
    resolveIdentifier cid c a = (bytesToString (a.dropWhile (fun b => b == 0)), false) := by
  unfold resolveIdentifier
  rw [hw]
  simp [hc]

/-- C3 witness: concrete resolution of a left-padded native denomination. -/
theorem C3_witness :
    resolveIdentifier 1 1 c3Addr = (bytesToString (c3Addr.dropWhile (fun b => b == 0)), false) :=
  C3_native_identifier 1 1 c3Addr (by decide) rfl

/-- Address decoding fails only with the bech32 error. -/
theorem accAddressFromBech32_error {cr : String} {e : Err}
    (h : accAddressFromBech32 cr = .error e) : e = .bech32Invalid := by
  unfold accAddressFromBech32 at h
  split at h
  · simp only [Except.error.injEq] at h
    exact h.symm
  · exact absurd h (by simp)

/-- The effect-application phase of a transfer never reports `FeeTooHigh`. -/
theorem transferApply_ne_feeTooHigh {cr : String} {i : TransferInstr} {idf : String}
    {w : Bool} {amount fee : Coin} {s : State} {tr : List Effect}
    (h : transferApply cr i idf w amount fee s = .fail .feeTooHigh tr) : False := by
  unfold transferApply at h
  split at h
  · simp at h
  · split at h
    · rename_i e' he'
      simp only [Outcome.fail.injEq] at h
      obtain ⟨rfl, -⟩ := h
      exact Err.noConfusion (accAddressFromBech32_error he')
    · split at h
      · split at h
        · simp at h
        · exact absurd h (by simp)
      · exact absurd h (by simp)

/-- C7: with well-formed normalized amounts, the call fails `FeeTooHigh`
exactly when the normalized amount is strictly below the normalized fee
(equality is accepted), and any such failure carries an empty effect trace —
the check precedes every mint and transfer. -/
theorem C7_fee_invariant (cid : Nat) (cr : String) (i : TransferInstr) (s : State)
    (meta : Metadata) (amount fee : Coin)
    (htc : i.toChain = cid)
    (hm : getDenomMetaData s (resolveIdentifier cid i.tokenChain i.tokenAddress).1 = some meta)
    (hva : coinValid ⟨(resolveIdentifier cid i.tokenChain i.tokenAddress).1, i.amountRaw⟩ = true)
    (hua : Untruncate ⟨(resolveIdentifier cid i.tokenChain i.tokenAddress).1, i.amountRaw⟩ meta =
      .ok amount)
    (hvf : coinValid ⟨(resolveIdentifier cid i.tokenChain i.tokenAddress).1, i.feeRaw⟩ = true)
    (huf : Untruncate ⟨(resolveIdentifier cid i.tokenChain i.tokenAddress).1, i.feeRaw⟩ meta =
      .ok fee) :
    (transferCore cid cr i s = .fail .feeTooHigh [] ↔ amount.amount < fee.amount)
    ∧ (∀ tr', transferCore cid cr i s = .fail .feeTooHigh tr' → tr' = []) := by
  have hred : transferCore cid cr i s =
      (if amount.amount < fee.amount then .fail .feeTooHigh []
       else transferApply cr i (resolveIdentifier cid i.tokenChain i.tokenAddress).1
         (resolveIdentifier cid i.tokenChain i.tokenAddress).2 amount fee s) := by
    unfold transferCore
    rw [if_neg (by simp [htc]), hm]
    simp only [hva, hua, hvf, huf]
    simp
  rw [hred]
  by_cases hlt : amount.amount < fee.amount
  · simp [hlt]
  · rw [if_neg hlt]
    constructor
    · constructor
      · intro hfa
        exact absurd (transferApply_ne_feeTooHigh hfa) (fun x => x)
      · intro hx
        exact absurd hx hlt
    · intro tr' hfa
      exact absurd (transferApply_ne_feeTooHigh hfa) (fun x => x)

/-- C7 witness: a concrete transfer of 3 with fee 5 fails `FeeTooHigh` with
no effects performed. -/
theorem C7_witness : transferCore 1 "alice" c7Instr c7State = .fail .feeTooHigh [] :=
  ((C7_fee_invariant 1 "alice" c7Instr c7State uatomMeta ⟨"uatom", 3⟩ ⟨"uatom", 5⟩ rfl
    (by decide) (by decide) rfl (by decide) rfl).1).mpr (by decide)

/-- C8 counterexample: with an invalid shared denomination the normalized fee
is not a well-formed coin value, yet the call fails `InvalidAmount` (the
amount coin is checked first, on the pre-normalization value), not
`InvalidFee`. -/
theorem C8_counterexample :
    Untruncate ⟨"A", (9 : Int)⟩ aMeta = .ok ⟨"A", 9⟩ ∧
    coinValid ⟨"A", (9 : Int)⟩ = false ∧
    executeTransfer 1 "alice" c8Body c8State = .fail .invalidAmount [] :=
  ⟨rfl, by decide, by decide⟩

/-- C8 (amended): the call fails `InvalidAmount` when the wire amount coin is
not a well-formed non-negative coin value, and `InvalidFee` when the amount
coin is well-formed (and normalizes) but the fee coin is not; the checks
apply to the pre-normalization coins, amount first. -/
theorem C8_amount_fee_validation (cid : Nat) (cr : String) (i : TransferInstr) (s : State)
    (meta : Metadata)
    (htc : i.toChain = cid)
    (hm : getDenomMetaData s (resolveIdentifier cid i.tokenChain i.tokenAddress).1 = some meta) :
    (coinValid ⟨(resolveIdentifier cid i.tokenChain i.tokenAddress).1, i.amountRaw⟩ = false →
      transferCore cid cr i s = .fail .invalidAmount [])
    ∧ (∀ amount,
        coinValid ⟨(resolveIdentifier cid i.tokenChain i.tokenAddress).1, i.amountRaw⟩ = true →
        Untruncate ⟨(resolveIdentifier cid i.tokenChain i.tokenAddress).1, i.amountRaw⟩ meta =
          .ok amount →
        coinValid ⟨(resolveIdentifier cid i.tokenChain i.tokenAddress).1, i.feeRaw⟩ = false →
        transferCore cid cr i s = .fail .invalidFee []) := by
  constructor
  · intro hva
    unfold transferCore
    rw [if_neg (by simp [htc]), hm]
    simp only [hva]
    simp
  · intro amount hva hua hvf
    unfold transferCore
    rw [if_neg (by simp [htc]), hm]
    simp only [hva, hua, hvf]
    simp

/-- C8 witness: a concrete instruction with a negative raw fee (a `big.Int`
value below zero) and a valid amount fails `InvalidFee`. -/
theorem C8_witness : transferCore 1 "alice" c8Instr c7State = .fail .invalidFee [] :=
  (C8_amount_fee_validation 1 "alice" c8Instr c7State uatomMeta rfl (by decide)).2
    ⟨"uatom", 4⟩ (by decide) rfl (by decide)

end Tokenbridge
